import Mathlib

/-!
Verification of the in-browser sports prediction engine of the Stats
repository: odds conversion, rolling-form feature engineering, the
logistic-regression training guards and normalization statistics, the
expected-value calculators, and the chronological backtest simulator.

JavaScript numbers are modelled with exact rationals.  Where a code path
inspects `NaN`, `Infinity`, or missing object fields, those states are
modelled explicitly (`JSNum`, `Option ℚ`); where a guard such as
`Number.isFinite` is applied to a value that is a finite rational by
construction, the guard is the identity and is noted in the doc comment
of the embedding.
-/

namespace Stats

/-- Result of the JavaScript `Number(x)` conversion as inspected by
`Number.isFinite`: a finite number, `NaN` (also produced by non-numeric
strings and `undefined`), or a signed infinity. -/
inductive JSNum where
  | finite (q : ℚ)
  | nan
  | inf
  | ninf
  deriving DecidableEq

/-- Embedding of `moneylineToFairProb` (src/unnamed/part_001 lines 258-264,
identical at src/unnamed/part_002 lines 1164-1170): non-finite input yields
1/2; positive input yields `100/(ml+100)`; otherwise `|ml|/(|ml|+100)`.
The function is total: it never throws. -/
def moneylineToFairProb (ml : JSNum) : ℚ :=
  match ml with
  | .nan | .inf | .ninf => 1/2
  | .finite num =>
    if num > 0 then 100 / (num + 100)
    else
      let neg := |num|
      neg / (neg + 100)

/-- Embedding of `removeVig` (src/unnamed/part_001 lines 266-270): the
`!Number.isFinite(total)` guard of the source is the identity on exact
rationals and is omitted; the remaining test is `total <= 1.0001`. -/
def removeVig (p1 p2 : ℚ) : ℚ × ℚ :=
  let total := p1 + p2
  if total ≤ 1.0001 then (p1, p2) else (p1 / total, p2 / total)

/-- JavaScript `Math.round`: round half toward positive infinity. -/
def jsRound (q : ℚ) : ℤ := ⌊q + 1/2⌋

/-- Embedding of `probToMoneyline` (src/unnamed/part_001 lines 272-276):
probabilities outside the open interval (0,1) yield the sentinel 0; a
probability of at least 1/2 yields the negative (favorite) line, otherwise
the positive (underdog) line. -/
def probToMoneyline (prob : ℚ) : ℤ :=
  if prob ≤ 0 ∨ 1 ≤ prob then 0
  else if 1/2 ≤ prob then jsRound (-(prob / (1 - prob)) * 100)
  else jsRound ((1 - prob) / prob * 100)

/-- Round trip of an integer American moneyline through the fair-probability
conversion and back (spec §8 round-trip property). -/
def mlRoundTrip (ml : ℤ) : ℤ :=
  probToMoneyline (moneylineToFairProb (.finite (ml : ℚ)))

/-- C3 counterexample: the claim says a moneyline of exactly zero yields the
neutral probability 0.5, but the source returns `|0|/(0+100) = 0` for input
zero (zero is finite, so the non-finite guard does not fire). -/
theorem moneylineToFairProb_zero_counterexample :
    moneylineToFairProb (.finite 0) = 0 ∧ moneylineToFairProb (.finite 0) ≠ 1/2 := by
  norm_num [moneylineToFairProb]

/-- C3 (amended): `moneylineToFairProb` returns 1/2 on every non-finite
input, returns 0 (not 1/2) on input zero, returns `100/(ml+100)` for
positive input and `|ml|/(|ml|+100)` for negative input, and is total
(never throws). -/
theorem moneylineToFairProb_spec :
    (moneylineToFairProb .nan = 1/2 ∧ moneylineToFairProb .inf = 1/2 ∧
      moneylineToFairProb .ninf = 1/2) ∧
    moneylineToFairProb (.finite 0) = 0 ∧
    (∀ q : ℚ, 0 < q → moneylineToFairProb (.finite q) = 100 / (q + 100)) ∧
    (∀ q : ℚ, q < 0 → moneylineToFairProb (.finite q) = |q| / (|q| + 100)) := by
  refine ⟨⟨rfl, rfl, rfl⟩, by norm_num [moneylineToFairProb], ?_, ?_⟩
  · intro q hq
    simp [moneylineToFairProb, hq]
  · intro q hq
    simp [moneylineToFairProb, not_lt.mpr hq.le, hq.not_lt]

/-- Witness for the amended C3 theorem at moneylines +110 and -110. -/
theorem moneylineToFairProb_spec_witness :
    moneylineToFairProb (.finite 110) = 100 / (110 + 100) ∧
    moneylineToFairProb (.finite (-110)) = |(-110 : ℚ)| / (|(-110 : ℚ)| + 100) :=
  ⟨moneylineToFairProb_spec.2.2.1 110 (by norm_num),
   moneylineToFairProb_spec.2.2.2 (-110) (by norm_num)⟩

/-- C4: `removeVig` returns its inputs unchanged whenever their sum is at
most 1.0001 (in particular when they already sum to 1), and otherwise
rescales them to sum to exactly 1 while preserving the ratio p1 : p2. -/
theorem removeVig_spec (p1 p2 : ℚ) :
    (p1 + p2 ≤ 1.0001 → removeVig p1 p2 = (p1, p2)) ∧
    (1.0001 < p1 + p2 →
      (removeVig p1 p2).1 + (removeVig p1 p2).2 = 1 ∧
      (removeVig p1 p2).1 * p2 = (removeVig p1 p2).2 * p1) := by
  constructor
  · intro h
    simp [removeVig, h]
  · intro h
    have hpos : (0 : ℚ) < p1 + p2 := lt_trans (by norm_num) h
    have hne : p1 + p2 ≠ 0 := hpos.ne'
    rw [removeVig]
    simp only [not_le.mpr h, if_false]
    constructor
    · field_simp
    · field_simp
      ring

/-- Witness for C4: already-normalized inputs (0.5, 0.5) pass through
unchanged, and the spec §8 example (0.6, 0.4348) is rescaled to sum to 1
with its ratio preserved. -/
theorem removeVig_spec_witness :
    removeVig (1/2) (1/2) = (1/2, 1/2) ∧
    ((removeVig (6/10) (4348/10000)).1 + (removeVig (6/10) (4348/10000)).2 = 1 ∧
      (removeVig (6/10) (4348/10000)).1 * (4348/10000)
        = (removeVig (6/10) (4348/10000)).2 * (6/10)) :=
  ⟨(removeVig_spec (1/2) (1/2)).1 (by norm_num),
   (removeVig_spec (6/10) (4348/10000)).2 (by norm_num)⟩

/-- Rounding a rational that is exactly an integer is the identity. -/
theorem jsRound_intCast (z : ℤ) : jsRound (z : ℚ) = z := by
  rw [jsRound, Int.floor_int_add]
  norm_num

/-- Round-trip helper: a positive moneyline strictly above 100 maps to a
probability strictly below 1/2 and back to itself exactly. -/
theorem mlRoundTrip_underdog (ml : ℤ) (h : 100 < ml) : mlRoundTrip ml = ml := by
  have hq : (100 : ℚ) < (ml : ℚ) := by exact_mod_cast h
  have hq0 : (0 : ℚ) < (ml : ℚ) := lt_trans (by norm_num) hq
  have hden : (0 : ℚ) < (ml : ℚ) + 100 := by linarith
  have hp : moneylineToFairProb (.finite (ml : ℚ)) = 100 / ((ml : ℚ) + 100) := by
    simp [moneylineToFairProb, hq0]
  set p : ℚ := 100 / ((ml : ℚ) + 100) with hpdef
  have hp_pos : 0 < p := by positivity
  have hp_lt_half : p < 1/2 := by
    rw [hpdef, div_lt_iff₀ hden]
    linarith
  have hcond : ¬ (p ≤ 0 ∨ 1 ≤ p) := by
    push_neg
    exact ⟨hp_pos, lt_trans hp_lt_half (by norm_num)⟩
  have harg : (1 - p) / p * 100 = (ml : ℚ) := by
    rw [hpdef]
    field_simp
  rw [mlRoundTrip, hp, probToMoneyline, if_neg hcond, if_neg (not_le.mpr hp_lt_half),
    harg, jsRound_intCast]

/-- Round-trip helper: a negative moneyline of magnitude at least 100 maps to
a probability of at least 1/2 and back to itself exactly. -/
theorem mlRoundTrip_favorite (ml : ℤ) (h : ml ≤ -100) : mlRoundTrip ml = ml := by
  have hq : (ml : ℚ) ≤ -100 := by exact_mod_cast h
  have hq0 : ¬ ((ml : ℚ) > 0) := by linarith
  have habs : |(ml : ℚ)| = -(ml : ℚ) := abs_of_nonpos (by linarith)
  have hm : (100 : ℚ) ≤ -(ml : ℚ) := by linarith
  have hden : (0 : ℚ) < -(ml : ℚ) + 100 := by linarith
  have hp : moneylineToFairProb (.finite (ml : ℚ)) = -(ml : ℚ) / (-(ml : ℚ) + 100) := by
    simp only [moneylineToFairProb, if_neg hq0, habs]
  set p : ℚ := -(ml : ℚ) / (-(ml : ℚ) + 100) with hpdef
  have hp_half : 1/2 ≤ p := by
    rw [hpdef, le_div_iff₀ hden]
    linarith
  have hp_lt_one : p < 1 := by
    rw [hpdef, div_lt_one hden]
    linarith
  have hcond : ¬ (p ≤ 0 ∨ 1 ≤ p) := by
    push_neg
    exact ⟨lt_of_lt_of_le (by norm_num) hp_half, hp_lt_one⟩
  have harg : -(p / (1 - p)) * 100 = (ml : ℚ) := by
    rw [hpdef]
    have h1 : 1 - -(ml : ℚ) / (-(ml : ℚ) + 100) = 100 / (-(ml : ℚ) + 100) := by
      field_simp
    rw [h1]
    field_simp
    ring
  rw [mlRoundTrip, hp, probToMoneyline, if_neg hcond, if_pos hp_half, harg, jsRound_intCast]

/-- C5 counterexample: the moneyline +100 round-trips to -100, flipping the
favorite/underdog sign (both encode the same probability 1/2, which
`probToMoneyline` renders with the favorite sign convention). -/
theorem mlRoundTrip_counterexample :
    mlRoundTrip 100 = -100 ∧ ¬ (0 < mlRoundTrip 100) := by
  have h : mlRoundTrip 100 = -100 := by
    have hp : moneylineToFairProb (.finite ((100 : ℤ) : ℚ)) = 1/2 := by
      norm_num [moneylineToFairProb]
    rw [mlRoundTrip, hp, probToMoneyline]
    norm_num [jsRound]
  exact ⟨h, by rw [h]; norm_num⟩

/-- C5 (amended): for every integer moneyline with |ml| at least 100, the
round trip `probToMoneyline (moneylineToFairProb ml)` returns ml exactly,
except that +100 maps to -100 (an even-money price rendered with the
favorite sign). -/
theorem mlRoundTrip_spec (ml : ℤ) (h : 100 ≤ ml ∨ ml ≤ -100) :
    mlRoundTrip ml = if ml = 100 then -100 else ml := by
  rcases h with h | h
  · rcases eq_or_lt_of_le h with heq | hlt
    · rw [← heq, if_pos rfl]
      exact mlRoundTrip_counterexample.1
    · rw [if_neg (by omega), mlRoundTrip_underdog ml hlt]
  · rw [if_neg (by omega), mlRoundTrip_favorite ml h]

/-- Witness for the amended C5 theorem at moneylines -150 and +250. -/
theorem mlRoundTrip_spec_witness :
    mlRoundTrip (-150) = -150 ∧ mlRoundTrip 250 = 250 := by
  constructor
  · have := mlRoundTrip_spec (-150) (Or.inr (by norm_num))
    simpa using this
  · have := mlRoundTrip_spec 250 (Or.inl (by norm_num))
    simpa using this

/-- Result of `calculateEV`: the two per-side expected values, the best of
the two, and the chosen side.  The source encodes the side as the string
`'Team 1'` or `'Team 2'`; it is modelled as the Boolean `sideIsTeam1`
(later consumed through `side.includes('Team 1')`). -/
structure EVResult where
  ev1 : ℚ
  ev2 : ℚ
  bestEV : ℚ
  sideIsTeam1 : Bool
  deriving DecidableEq

/-- Embedding of `calculateEV` (src/unnamed/part_002 lines 1851-1871,
identical at src/unnamed/part_001 lines 756-776).  The `toFixed(1)` string
formatting of the returned fields is applied at the consumer
(`parseFloat(evResult.bestEV)` in the backtest) and is modelled there. -/
def calculateEV (modelProb ml1 ml2 : ℚ) : EVResult :=
  let fair1 := modelProb
  let fair2 := 1 - modelProb
  let payout1 := if ml1 > 0 then ml1 / 100 + 1 else 1 + 100 / |ml1|
  let payout2 := if ml2 > 0 then ml2 / 100 + 1 else 1 + 100 / |ml2|
  let ev1 := (fair1 * payout1 - (1 - fair1)) * 100
  let ev2 := (fair2 * payout2 - (1 - fair2)) * 100
  { ev1 := ev1, ev2 := ev2, bestEV := max ev1 ev2, sideIsTeam1 := decide (ev1 > ev2) }

/-- Result of `calculateSpreadEV`; the side string `Team 1 spread` /
`Team 2 -spread` is modelled as the Boolean `sideIsTeam1`, and the
cover probabilities are kept as exact rationals (the source additionally
formats them as percentage strings). -/
structure SpreadEVResult where
  ev1 : ℚ
  ev2 : ℚ
  bestEV : ℚ
  sideIsTeam1 : Bool
  team1CoverProb : ℚ
  team2CoverProb : ℚ
  deriving DecidableEq

/-- Embedding of `calculateSpreadEV` (src/unnamed/part_002 lines 1873-1903,
identical at src/unnamed/part_001 lines 778-809).  The heuristic cover
probability is clamped to [0.1, 0.9] before the payout computation. -/
def calculateSpreadEV (team1WinProb spread odds1 odds2 : ℚ) : SpreadEVResult :=
  let spreadMagnitude := |spread|
  let rawCover := if spread < 0
    then team1WinProb * (0.85 - spreadMagnitude * 0.02)
    else team1WinProb + (1 - team1WinProb) * spreadMagnitude * 0.05
  let team1CoverProb := max 0.1 (min 0.9 rawCover)
  let team2CoverProb := 1 - team1CoverProb
  let payout1 := if odds1 > 0 then odds1 / 100 + 1 else 1 + 100 / |odds1|
  let payout2 := if odds2 > 0 then odds2 / 100 + 1 else 1 + 100 / |odds2|
  let ev1 := (team1CoverProb * payout1 - (1 - team1CoverProb)) * 100
  let ev2 := (team2CoverProb * payout2 - (1 - team2CoverProb)) * 100
  { ev1 := ev1, ev2 := ev2, bestEV := max ev1 ev2, sideIsTeam1 := decide (ev1 > ev2),
    team1CoverProb := team1CoverProb, team2CoverProb := team2CoverProb }

/-- Result of `calculateTotalEV`; the side string `Over total` /
`Under total` is modelled as the Boolean `sideIsOver`. -/
structure TotalEVResult where
  evOver : ℚ
  evUnder : ℚ
  bestEV : ℚ
  sideIsOver : Bool
  overProb : ℚ
  underProb : ℚ
  deriving DecidableEq

/-- Embedding of `calculateTotalEV` (src/unnamed/part_001 lines 811-836,
identical at src/unnamed/part_002 lines 1906-1931).  The unused local
`expectedTotal = parseFloat(total)` of the source is omitted; the over
probability is a clamp of `0.45 + team1WinProb * 0.1` to [0.3, 0.7]. -/
def calculateTotalEV (team1WinProb total overOdds underOdds : ℚ) : TotalEVResult :=
  let scoringFactor := 0.45 + team1WinProb * 0.1
  let overProb := max 0.3 (min 0.7 scoringFactor)
  let underProb := 1 - overProb
  let payoutOver := if overOdds > 0 then overOdds / 100 + 1 else 1 + 100 / |overOdds|
  let payoutUnder := if underOdds > 0 then underOdds / 100 + 1 else 1 + 100 / |underOdds|
  let evOver := (overProb * payoutOver - (1 - overProb)) * 100
  let evUnder := (underProb * payoutUnder - (1 - underProb)) * 100
  { evOver := evOver, evUnder := evUnder, bestEV := max evOver evUnder,
    sideIsOver := decide (evOver > evUnder), overProb := overProb, underProb := underProb }

/-- C6 counterexample: at model probability 1/2 and equal moneylines +100 the
two sides have exactly equal EV, and the chosen side is Team 2, not Team 1:
the source's `ev1 > ev2 ? 'Team 1' : 'Team 2'` breaks ties toward side 2. -/
theorem calculateEV_tie_counterexample :
    (calculateEV (1/2) 100 100).ev1 = (calculateEV (1/2) 100 100).ev2 ∧
    (calculateEV (1/2) 100 100).sideIsTeam1 = false := by
  norm_num [calculateEV]

/-- C6 (amended): `calculateEV` uses payout multiplier `odds/100 + 1` for
positive odds and `1 + 100/|odds|` for negative odds, computes each side's
EV as `(fairProb * payout - (1 - fairProb)) * 100` with side 2's fair
probability `1 - p`, selects as best EV the larger of the two, and chooses
side 1 exactly when ev1 is strictly larger — so ties are broken toward
side 2, not side 1. -/
theorem calculateEV_spec (p ml1 ml2 : ℚ) :
    ((0 < ml1 → (calculateEV p ml1 ml2).ev1 = (p * (ml1 / 100 + 1) - (1 - p)) * 100) ∧
     (ml1 < 0 → (calculateEV p ml1 ml2).ev1 = (p * (1 + 100 / |ml1|) - (1 - p)) * 100)) ∧
    ((0 < ml2 → (calculateEV p ml1 ml2).ev2 = ((1 - p) * (ml2 / 100 + 1) - p) * 100) ∧
     (ml2 < 0 → (calculateEV p ml1 ml2).ev2 = ((1 - p) * (1 + 100 / |ml2|) - p) * 100)) ∧
    (calculateEV p ml1 ml2).bestEV
      = max (calculateEV p ml1 ml2).ev1 (calculateEV p ml1 ml2).ev2 ∧
    ((calculateEV p ml1 ml2).sideIsTeam1 = true ↔
      (calculateEV p ml1 ml2).ev2 < (calculateEV p ml1 ml2).ev1) := by
  refine ⟨⟨?_, ?_⟩, ⟨?_, ?_⟩, rfl, ?_⟩
  · intro h
    simp [calculateEV, h]
  · intro h
    simp [calculateEV, not_lt.mpr h.le]
  · intro h
    simp only [calculateEV, if_pos h]
    ring_nf
  · intro h
    simp only [calculateEV, if_neg (not_lt.mpr h.le)]
    ring_nf
  · simp [calculateEV, gt_iff_lt]

/-- Witness for the amended C6 theorem at p = 0.6, ml1 = -150, ml2 = +130
(the spec §8 vig-removal example prices). -/
theorem calculateEV_spec_witness :
    (calculateEV (6/10) (-150) 130).ev1
      = ((6/10) * (1 + 100 / |(-150 : ℚ)|) - (1 - 6/10)) * 100 ∧
    (calculateEV (6/10) (-150) 130).ev2
      = ((1 - 6/10) * ((130 : ℚ) / 100 + 1) - 6/10) * 100 :=
  ⟨(calculateEV_spec (6/10) (-150) 130).1.2 (by norm_num),
   (calculateEV_spec (6/10) (-150) 130).2.1.1 (by norm_num)⟩

/-- C10: the heuristic market probabilities are clamped to fixed bounds:
the team-1 spread cover probability always lies in [0.1, 0.9] with team 2's
probability its complement, and the totals over probability always lies in
[0.3, 0.7] with the under probability its complement. -/
theorem heuristic_prob_clamps :
    (∀ p s o1 o2 : ℚ,
      1/10 ≤ (calculateSpreadEV p s o1 o2).team1CoverProb ∧
      (calculateSpreadEV p s o1 o2).team1CoverProb ≤ 9/10 ∧
      (calculateSpreadEV p s o1 o2).team2CoverProb
        = 1 - (calculateSpreadEV p s o1 o2).team1CoverProb) ∧
    (∀ p t oo uo : ℚ,
      3/10 ≤ (calculateTotalEV p t oo uo).overProb ∧
      (calculateTotalEV p t oo uo).overProb ≤ 7/10 ∧
      (calculateTotalEV p t oo uo).underProb
        = 1 - (calculateTotalEV p t oo uo).overProb) := by
  constructor
  · intro p s o1 o2
    refine ⟨?_, ?_, rfl⟩
    · simp only [calculateSpreadEV]
      exact le_trans (by norm_num) (le_max_left (0.1 : ℚ) _)
    · simp only [calculateSpreadEV]
      exact max_le (by norm_num) (le_trans (min_le_left _ _) (by norm_num))
  · intro p t oo uo
    refine ⟨?_, ?_, rfl⟩
    · simp only [calculateTotalEV]
      exact le_trans (by norm_num) (le_max_left (0.3 : ℚ) _)
    · simp only [calculateTotalEV]
      exact max_le (by norm_num) (le_trans (min_le_left _ _) (by norm_num))

/-- Outcome of `checkSpreadWinner`. -/
inductive SpreadOutcome where
  | home
  | away
  | push
  deriving DecidableEq

/-- Embedding of `checkSpreadWinner` (src/unnamed/part_002 lines 1190-1201).
Score and spread inputs are the `parseFloat` views of the row fields:
`none` is a missing or unparseable value (`NaN`), `some q` a finite parse.
A `none` result is the JavaScript `null`. -/
def checkSpreadWinner (homeScore awayScore spread : Option ℚ) : Option SpreadOutcome :=
  match homeScore, awayScore, spread with
  | some h, some a, some s =>
    let adjustedHome := h + s
    if adjustedHome > a then some .home
    else if adjustedHome < a then some .away
    else some .push
  | _, _, _ => none

/-- Embedding of `determineWinnerFromScores` (src/unnamed/part_002 lines
1203-1216).  With a finite spread present the winner is the spread-cover
result (1 for home, 0 for away, `null` for a push); otherwise the side with
the strictly higher score wins (ties yield 0).  A `none` spread covers the
source's missing / null / empty-string / unparseable spread cases, all of
which fall through to the score comparison. -/
def determineWinnerFromScores (homeScore awayScore spread : Option ℚ) : Option ℚ :=
  match homeScore, awayScore with
  | some h, some a =>
    match spread with
    | some _ =>
      match checkSpreadWinner homeScore awayScore spread with
      | some .home => some 1
      | some .away => some 0
      | _ => none
    | none => some (if h > a then 1 else 0)
  | _, _ => none

/-- One input row of `addLast5WinColumns`.  `team1`/`team2` are the resolved
competitor identifiers (the source reads `row.team1 || row.home_team`);
`winner` is the row's own winner field, `none` when it is undefined, null or
the empty string (which triggers derivation from scores); the remaining
fields are the `parseFloat` views of the score and spread columns. -/
structure FormRow where
  team1 : String
  team2 : String
  winner : Option ℚ
  homeScore : Option ℚ
  awayScore : Option ℚ
  spread : Option ℚ
  deriving DecidableEq

/-- One output row of `addLast5WinColumns`: the original row together with
the two assigned rolling-form values and the normalized winner. -/
structure FormRowOut where
  row : FormRow
  team1_last5 : ℚ
  team2_last5 : ℚ
  winnerOut : ℚ
  deriving DecidableEq

/-- JavaScript `slice(-5)`: the suffix of at most the last five entries. -/
def lastFive (l : List ℚ) : List ℚ := l.drop (l.length - 5)

/-- Rolling-form rate over a competitor's recorded outcome history
(src/unnamed/part_002 lines 1307-1311): the mean of the last at most five
outcomes, or the neutral 1/2 when the history is empty. -/
def winRate (l : List ℚ) : ℚ :=
  let last5 := lastFive l
  if 0 < last5.length then last5.sum / last5.length else 1/2

/-- Winner value used for the history update and the output row
(src/unnamed/part_002 lines 1313-1320): the row's own winner field if
present, otherwise the score-derived winner (which is `null` on a push). -/
def effectiveWinner (r : FormRow) : Option ℚ :=
  match r.winner with
  | some w => some w
  | none => determineWinnerFromScores r.homeScore r.awayScore r.spread

/-- JavaScript `Number` applied to the effective winner at line 1322 and
line 1332 of src/unnamed/part_002: `Number(null) = 0`. -/
def jsNumberOrZero (w : Option ℚ) : ℚ := w.getD 0

/-- Outcome appended to team 1's history (1 exactly when the winner is 1). -/
def t1Result (r : FormRow) : ℚ :=
  if jsNumberOrZero (effectiveWinner r) = 1 then 1 else 0

/-- Outcome appended to team 2's history (1 exactly when the winner is 0). -/
def t2Result (r : FormRow) : ℚ :=
  if jsNumberOrZero (effectiveWinner r) = 0 then 1 else 0

/-- History update of one row (src/unnamed/part_002 lines 1325-1326): both
histories are read before either is written, then team 1's entry and then
team 2's entry are replaced (so when the two keys coincide the second write
wins, exactly as in JavaScript). -/
def histStep (h : String → List ℚ) (r : FormRow) : String → List ℚ :=
  fun t =>
    if t = r.team2 then h r.team2 ++ [t2Result r]
    else if t = r.team1 then h r.team1 ++ [t1Result r]
    else h t

/-- Output row produced for one input row against the current history
(src/unnamed/part_002 lines 1304-1333, before the history update). -/
def formOut (h : String → List ℚ) (r : FormRow) : FormRowOut :=
  { row := r,
    team1_last5 := winRate (h r.team1),
    team2_last5 := winRate (h r.team2),
    winnerOut := jsNumberOrZero (effectiveWinner r) }

/-- Recursive core of `addLast5WinColumns`: the source's `rows.map` over a
mutable `history` object, made explicit as state passing. -/
def addLast5Aux (h : String → List ℚ) : List FormRow → List FormRowOut
  | [] => []
  | r :: rs => formOut h r :: addLast5Aux (histStep h r) rs

/-- Embedding of `addLast5WinColumns` (src/unnamed/part_002 lines 1299-1335,
identical at src/unnamed/part_001 lines 393-430): replay the rows in order
against an initially empty history. -/
def addLast5WinColumns (rows : List FormRow) : List FormRowOut :=
  addLast5Aux (fun _ => []) rows

/-- History accumulated by replaying a list of rows from the empty state. -/
def buildHistory (rows : List FormRow) : String → List ℚ :=
  rows.foldl histStep (fun _ => [])

/-- Default row used for out-of-range list access in statements. -/
def dummyRow : FormRow :=
  { team1 := "", team2 := "", winner := none,
    homeScore := none, awayScore := none, spread := none }

/-- Default output row used for out-of-range list access in statements. -/
def dummyOut : FormRowOut :=
  { row := dummyRow, team1_last5 := 0, team2_last5 := 0, winnerOut := 0 }

/-- The length of the rolling-form output equals the input length. -/
theorem addLast5Aux_length (rows : List FormRow) :
    ∀ h : String → List ℚ, (addLast5Aux h rows).length = rows.length := by
  induction rows with
  | nil => intro h; rfl
  | cons r rs ih =>
    intro h
    simp [addLast5Aux, ih]

/-- Every output row of the replay equals the row evaluated against exactly
the history accumulated from the strictly earlier rows. -/
theorem addLast5Aux_getD (rows : List FormRow) :
    ∀ (h0 : String → List ℚ) (i : ℕ), i < rows.length →
      (addLast5Aux h0 rows).getD i dummyOut
        = formOut ((rows.take i).foldl histStep h0) (rows.getD i dummyRow) := by
  induction rows with
  | nil =>
    intro h0 i hi
    simp at hi
  | cons r rs ih =>
    intro h0 i hi
    cases i with
    | zero => simp [addLast5Aux]
    | succ n =>
      have hn : n < rs.length := by simpa using hi
      simp only [addLast5Aux, List.getD_cons_succ, List.take_succ_cons, List.foldl_cons]
      exact ih (histStep h0 r) n hn

/-- One input row of the `addLast5WinColumns` variant at
src/src/SportsPredictionModel.jsx lines 232-267.  That variant reads
`row.team1`/`row.team2` directly, takes `Number(row.winner)` without any
score-based derivation, and checks whether the row already carries
`team1_last5`/`team2_last5` columns: `none` means the column is absent
(undefined), `some v` holds the `Number` view of a present cell value — a
blank cell is present with `Number('') = 0`, a non-numeric cell with
`NaN`. -/
structure JsxFormRow where
  team1 : String
  team2 : String
  winner : JSNum
  team1_last5 : Option JSNum
  team2_last5 : Option JSNum
  deriving DecidableEq

/-- One output row of the jsx variant: the original row plus the two
assigned form values (which can be any `Number` result when the column was
already present). -/
structure JsxFormRowOut where
  row : JsxFormRow
  team1_last5 : JSNum
  team2_last5 : JSNum
  deriving DecidableEq

/-- Outcome appended to team 1's history in the jsx variant
(`winner === 1 ? 1 : 0`, src/src/SportsPredictionModel.jsx line 253). -/
def jsxT1Result (r : JsxFormRow) : ℚ :=
  if r.winner = .finite 1 then 1 else 0

/-- Outcome appended to team 2's history in the jsx variant
(`winner === 0 ? 1 : 0`, src/src/SportsPredictionModel.jsx line 254). -/
def jsxT2Result (r : JsxFormRow) : ℚ :=
  if r.winner = .finite 0 then 1 else 0

/-- History update of the jsx variant (src/src/SportsPredictionModel.jsx
lines 256-257): both histories are read before either is written; on a key
collision the second write wins. -/
def jsxHistStep (h : String → List ℚ) (r : JsxFormRow) : String → List ℚ :=
  fun t =>
    if t = r.team2 then h r.team2 ++ [jsxT2Result r]
    else if t = r.team1 then h r.team1 ++ [jsxT1Result r]
    else h t

/-- Output row of the jsx variant for one input row (src/src/
SportsPredictionModel.jsx lines 259-265): a present `team1_last5`/
`team2_last5` column value is passed through (`row.team1_last5 !==
undefined ? Number(row.team1_last5) : t1Rate`); only an absent column gets
the computed rolling rate. -/
def jsxFormOut (h : String → List ℚ) (r : JsxFormRow) : JsxFormRowOut :=
  { row := r,
    team1_last5 := r.team1_last5.getD (.finite (winRate (h r.team1))),
    team2_last5 := r.team2_last5.getD (.finite (winRate (h r.team2))) }

/-- Recursive core of the jsx variant's `rows.map` over the mutable
history object. -/
def addLast5Jsx (h : String → List ℚ) : List JsxFormRow → List JsxFormRowOut
  | [] => []
  | r :: rs => jsxFormOut h r :: addLast5Jsx (jsxHistStep h r) rs

/-- Embedding of the `addLast5WinColumns` variant at
src/src/SportsPredictionModel.jsx lines 232-267. -/
def addLast5WinColumnsJsx (rows : List JsxFormRow) : List JsxFormRowOut :=
  addLast5Jsx (fun _ => []) rows

/-- History accumulated by the jsx variant from the empty state. -/
def jsxBuildHistory (rows : List JsxFormRow) : String → List ℚ :=
  rows.foldl jsxHistStep (fun _ => [])

/-- Default jsx row used for out-of-range list access in statements. -/
def dummyJsxRow : JsxFormRow :=
  { team1 := "", team2 := "", winner := .nan, team1_last5 := none, team2_last5 := none }

/-- Default jsx output row used for out-of-range list access in statements. -/
def dummyJsxOut : JsxFormRowOut :=
  { row := dummyJsxRow, team1_last5 := .nan, team2_last5 := .nan }

/-- Every output row of the jsx replay equals the row evaluated against
exactly the history accumulated from the strictly earlier rows. -/
theorem addLast5Jsx_getD (rows : List JsxFormRow) :
    ∀ (h0 : String → List ℚ) (i : ℕ), i < rows.length →
      (addLast5Jsx h0 rows).getD i dummyJsxOut
        = jsxFormOut ((rows.take i).foldl jsxHistStep h0) (rows.getD i dummyJsxRow) := by
  induction rows with
  | nil =>
    intro h0 i hi
    simp at hi
  | cons r rs ih =>
    intro h0 i hi
    cases i with
    | zero => simp [addLast5Jsx]
    | succ n =>
      have hn : n < rs.length := by simpa using hi
      simp only [addLast5Jsx, List.getD_cons_succ, List.take_succ_cons, List.foldl_cons]
      exact ih (jsxHistStep h0 r) n hn

/-- A first row that already carries form columns: `team1_last5 = 0.8` and
a blank `team2_last5` cell (whose `Number` is 0). -/
def presetJsxRow : JsxFormRow :=
  { team1 := "A", team2 := "B", winner := .finite 1,
    team1_last5 := some (.finite (8/10)), team2_last5 := some (.finite 0) }

/-- C1 counterexample: in the SportsPredictionModel.jsx variant, a row whose
`team1_last5`/`team2_last5` columns are present is assigned those column
values (0.8, and 0 for a blank cell) even though neither competitor has any
prior history, where the claim mandates the neutral win-rate 1/2 — so the
assigned form values are not the rolling win-rate over strictly earlier
outcomes. -/
theorem addLast5WinColumns_jsx_counterexample :
    ((addLast5WinColumnsJsx [presetJsxRow]).getD 0 dummyJsxOut).team1_last5
        = JSNum.finite (8/10) ∧
    ((addLast5WinColumnsJsx [presetJsxRow]).getD 0 dummyJsxOut).team2_last5
        = JSNum.finite 0 ∧
    jsxBuildHistory (List.take 0 [presetJsxRow]) presetJsxRow.team1 = [] ∧
    winRate [] = 1/2 ∧
    JSNum.finite (8/10) ≠ JSNum.finite (1/2) ∧
    JSNum.finite 0 ≠ JSNum.finite (1/2) := by
  refine ⟨rfl, rfl, rfl, rfl, ?_, ?_⟩
  · simp only [ne_eq, JSNum.finite.injEq]
    norm_num
  · simp only [ne_eq, JSNum.finite.injEq]
    norm_num

/-- C1 (amended): in the part_002/part_001 variant of
`addLast5WinColumns`, the form values assigned to the i-th row are always
the rolling win-rate (mean of the last at most five recorded outcomes, 1/2
on empty history) over the history built from the strictly earlier rows
only.  In the SportsPredictionModel.jsx variant the same holds exactly for
rows whose `team1_last5`/`team2_last5` columns are absent, while a present
column value (including a blank cell, whose `Number` is 0) is passed
through unchanged.  In both variants a row's own outcome is appended to the
histories only after its form values are computed, so no assigned value
ever depends on the row's own or a later row's outcome. -/
theorem addLast5WinColumns_no_lookahead :
    (∀ (rows : List FormRow) (i : ℕ), i < rows.length →
      ((addLast5WinColumns rows).getD i dummyOut).team1_last5
          = winRate (buildHistory (rows.take i) ((rows.getD i dummyRow).team1)) ∧
      ((addLast5WinColumns rows).getD i dummyOut).team2_last5
          = winRate (buildHistory (rows.take i) ((rows.getD i dummyRow).team2))) ∧
    (∀ (rows : List JsxFormRow) (i : ℕ), i < rows.length →
      ((addLast5WinColumnsJsx rows).getD i dummyJsxOut).team1_last5
          = ((rows.getD i dummyJsxRow).team1_last5).getD
              (.finite (winRate (jsxBuildHistory (rows.take i)
                ((rows.getD i dummyJsxRow).team1)))) ∧
      ((addLast5WinColumnsJsx rows).getD i dummyJsxOut).team2_last5
          = ((rows.getD i dummyJsxRow).team2_last5).getD
              (.finite (winRate (jsxBuildHistory (rows.take i)
                ((rows.getD i dummyJsxRow).team2))))) := by
  constructor
  · intro rows i hi
    rw [addLast5WinColumns, addLast5Aux_getD rows (fun _ => []) i hi]
    exact ⟨rfl, rfl⟩
  · intro rows i hi
    rw [addLast5WinColumnsJsx, addLast5Jsx_getD rows (fun _ => []) i hi]
    exact ⟨rfl, rfl⟩

/-- Demonstration rows for the no-lookahead witness: team A plays three
games (win, loss, win). -/
def demoRows : List FormRow :=
  [ { team1 := "A", team2 := "B", winner := some 1,
      homeScore := none, awayScore := none, spread := none },
    { team1 := "A", team2 := "C", winner := some 0,
      homeScore := none, awayScore := none, spread := none },
    { team1 := "A", team2 := "D", winner := some 1,
      homeScore := none, awayScore := none, spread := none } ]

/-- Demonstration rows for the jsx part of the witness: two games of team A
without preset form columns. -/
def demoJsxRows : List JsxFormRow :=
  [ { team1 := "A", team2 := "B", winner := .finite 1,
      team1_last5 := none, team2_last5 := none },
    { team1 := "A", team2 := "C", winner := .finite 0,
      team1_last5 := none, team2_last5 := none } ]

/-- Witness for the amended C1 theorem: the third demo row's form features
in the part_002 variant are exactly the rolling rates over the first two
rows, team A's value being the 1/2 win rate over its two prior outcomes and
not influenced by the third row's own win; and the second jsx demo row
(with absent form columns) gets the computed rolling rate. -/
theorem addLast5WinColumns_no_lookahead_witness :
    (((addLast5WinColumns demoRows).getD 2 dummyOut).team1_last5
        = winRate (buildHistory (demoRows.take 2) ((demoRows.getD 2 dummyRow).team1)) ∧
      ((addLast5WinColumns demoRows).getD 2 dummyOut).team2_last5
        = winRate (buildHistory (demoRows.take 2) ((demoRows.getD 2 dummyRow).team2))) ∧
    (((addLast5WinColumnsJsx demoJsxRows).getD 1 dummyJsxOut).team1_last5
        = ((demoJsxRows.getD 1 dummyJsxRow).team1_last5).getD
            (.finite (winRate (jsxBuildHistory (demoJsxRows.take 1)
              ((demoJsxRows.getD 1 dummyJsxRow).team1)))) ∧
      ((addLast5WinColumnsJsx demoJsxRows).getD 1 dummyJsxOut).team2_last5
        = ((demoJsxRows.getD 1 dummyJsxRow).team2_last5).getD
            (.finite (winRate (jsxBuildHistory (demoJsxRows.take 1)
              ((demoJsxRows.getD 1 dummyJsxRow).team2))))) ∧
    winRate (buildHistory (demoRows.take 2) "A") = 1/2 := by
  refine ⟨?_, ?_, ?_⟩
  · exact addLast5WinColumns_no_lookahead.1 demoRows 2 (by norm_num [demoRows])
  · exact addLast5WinColumns_no_lookahead.2 demoJsxRows 1 (by norm_num [demoJsxRows])
  · have hhist : buildHistory (demoRows.take 2) "A" = [1, 0] := by
      simp [demoRows, buildHistory, histStep, t1Result, t2Result, effectiveWinner,
        jsNumberOrZero]
    rw [hhist]
    norm_num [winRate, lastFive]

/-- Value of a row's `winner` field as read by the training filter: a
number or a string (the filter accepts 0, 1, '0' and '1'). -/
inductive WinnerVal where
  | wnum (q : ℚ)
  | wstr (s : String)
  deriving DecidableEq

/-- One stored training row as read by `trainModel`: the winner field
(`none` when absent), the `Number` views of the two moneyline columns, and
the `Number` views of the two rolling-form feature columns. -/
structure TrainRow where
  winner : Option WinnerVal
  team1_moneyline : JSNum
  team2_moneyline : JSNum
  team1_last5 : JSNum
  team2_last5 : JSNum
  deriving DecidableEq

/-- Usability filter of `trainModel` (src/unnamed/part_002 lines 1614-1616):
a row is usable exactly when its winner field is the number 0 or 1 or the
string '0' or '1'.  No feature field is inspected by the filter. -/
def usableRow (r : TrainRow) : Bool :=
  decide (r.winner = some (.wnum 0) ∨ r.winner = some (.wnum 1) ∨
    r.winner = some (.wstr "0") ∨ r.winner = some (.wstr "1"))

/-- JavaScript `Number` on a winner value that passed the usability filter
(src/unnamed/part_002 line 1638); only the four accepted values reach it. -/
def winnerNum : WinnerVal → ℚ
  | .wnum q => q
  | .wstr s => if s = "1" then 1 else 0

/-- Finite-or-default coercion `Number.isFinite(v) ? v : d`. -/
def jsFiniteOr (d : ℚ) (v : JSNum) : ℚ :=
  match v with
  | .finite q => q
  | _ => d

/-- Feature-vector construction of `trainModel` (src/unnamed/part_002 lines
1623-1636) for the team-sport feature list `[team1_moneyline,
team2_moneyline, team1_last5, team2_last5]`: moneyline features are
replaced by the de-vigged fair probabilities (the source's
`Number.isFinite(val) ? val : 0.5` guard is the identity on the exact
rationals produced by `removeVig`), other features by their numeric value
with non-finite values coerced to 0. -/
def trainFeatureRow (r : TrainRow) : List ℚ :=
  let p1 := moneylineToFairProb r.team1_moneyline
  let p2 := moneylineToFairProb r.team2_moneyline
  let fair := removeVig p1 p2
  [fair.1, fair.2, jsFiniteOr 0 r.team1_last5, jsFiniteOr 0 r.team2_last5]

/-- The two refusal alerts of `trainModel`. -/
inductive TrainRefusal where
  | needAtLeast20
  | noLabeledRows
  deriving DecidableEq

/-- Embedding of the guard and matrix-construction phase of `trainModel`
(src/unnamed/part_002 lines 1607-1638, identical at src/unnamed/part_001
lines 664-695): refuse when fewer than 20 total rows are stored, filter to
rows with a binary winner label, refuse when no row survives, and otherwise
build the feature matrix and label vector from all surviving rows.  On an
`ok` result the source proceeds unconditionally into
`trainLogisticRegression` and produces a model; no further sample-count
check exists. -/
def trainModelPrepare (rows : List TrainRow) :
    Except TrainRefusal (List (List ℚ) × List ℚ) :=
  if rows.length < 20 then .error .needAtLeast20
  else
    let usable := rows.filter usableRow
    if usable.length = 0 then .error .noLabeledRows
    else .ok (usable.map trainFeatureRow,
      usable.map (fun r => winnerNum (r.winner.getD (.wnum 0))))

/-- An unlabeled training row (winner field absent). -/
def unlabeledRow : TrainRow :=
  { winner := none, team1_moneyline := .finite (-110), team2_moneyline := .finite (-110),
    team1_last5 := .finite (1/2), team2_last5 := .finite (1/2) }

/-- A labeled training row with the given numeric winner. -/
def labeledRow (w : ℚ) : TrainRow :=
  { winner := some (.wnum w), team1_moneyline := .finite (-110),
    team2_moneyline := .finite (-110),
    team1_last5 := .finite (1/2), team2_last5 := .finite (1/2) }

/-- A 20-row dataset of which only 5 rows are usable. -/
def ex20rows : List TrainRow :=
  List.replicate 15 unlabeledRow ++
    [labeledRow 1, labeledRow 0, labeledRow 1, labeledRow 0, labeledRow 1]

/-- C2 counterexample: a dataset of 20 total rows of which only 5 survive
the usability filter does NOT make training refuse — `trainModelPrepare`
succeeds and training proceeds on the 5 usable rows, because the 20-row
minimum is checked against the unfiltered row count and the post-filter
check only rejects an empty survivor set. -/
theorem trainModelPrepare_counterexample :
    ex20rows.length = 20 ∧
    (ex20rows.filter usableRow).length = 5 ∧
    (trainModelPrepare ex20rows).isOk = true := by
  refine ⟨rfl, rfl, rfl⟩

/-- C2 (amended): training refuses exactly when fewer than 20 total
(unfiltered) rows are stored or when no row at all survives the
winner-label filter; otherwise it returns a label vector containing every
surviving row (even when far fewer than 20 survive), and the model is then
trained on those rows.  The usability filter inspects only the winner
label; feature values are coerced, never filtered. -/
theorem trainModelPrepare_guard (rows : List TrainRow) :
    (trainModelPrepare rows).toOption.map (fun Xy => Xy.2.length)
      = if 20 ≤ rows.length ∧ 0 < (rows.filter usableRow).length
        then some (rows.filter usableRow).length
        else none := by
  simp only [trainModelPrepare]
  split_ifs with h1 h2 h3 h4 h5 <;>
    first
      | rfl
      | omega
      | exact congrArg some (List.length_map _ _)

/-- Column statistics of `trainLogisticRegression` (src/unnamed/part_002
lines 1225-1232): the mean of one feature column, accumulated by the
source's summation loop (whose `Number.isFinite` guard is the identity on
exact rationals) and divided by the sample count. -/
def colMean (col : List ℚ) : ℚ :=
  (col.foldl (fun sum v => sum + v) 0) / col.length

/-- Column variance of `trainLogisticRegression` (src/unnamed/part_002
lines 1234-1241): squared deviations from the column mean accumulated and
divided by the sample count n (population variance, not the n-1 sample
variance). -/
def colVariance (col : List ℚ) : ℚ :=
  (col.foldl (fun acc v => acc + (v - colMean col) * (v - colMean col)) 0) / col.length

open scoped Classical in
/-- Column standard deviation with the zero fallback (src/unnamed/part_002
lines 1242-1243): `s = Math.sqrt(variance)`, then `s || 1` replaces a zero
result by 1. -/
noncomputable def colStd (col : List ℚ) : ℝ :=
  let s := Real.sqrt ((colVariance col : ℚ) : ℝ)
  if s = 0 then 1 else s

/-- The accumulated variance numerator is nonnegative, hence so is the
column variance. -/
theorem colVariance_nonneg (col : List ℚ) : 0 ≤ colVariance col := by
  rw [colVariance]
  apply div_nonneg _ (by positivity)
  have h : ∀ (l : List ℚ) (a : ℚ), 0 ≤ a →
      0 ≤ l.foldl (fun acc v => acc + (v - colMean col) * (v - colMean col)) a := by
    intro l
    induction l with
    | nil => intro a ha; simpa using ha
    | cons x xs ih =>
      intro a ha
      simp only [List.foldl_cons]
      exact ih _ (by nlinarith [sq_nonneg (x - colMean col)])
  exact h col 0 le_rfl

/-- C9: training normalization computes the column mean as the average and
the standard deviation as the population standard deviation with divisor n
(not n-1), substituting 1 exactly when the computed deviation is zero: the
column [10, 20, 30] has mean 20, variance 200/3 and standard deviation
between 8.164 and 8.166 (approximately 8.165, whereas the n-1 convention
would give 10), and the constant column [5, 5, 5] gets the fallback 1. -/
theorem trainNormalization_spec :
    colMean [10, 20, 30] = 20 ∧
    colVariance [10, 20, 30] = 200/3 ∧
    ((8164/1000 : ℝ) < colStd [10, 20, 30] ∧ colStd [10, 20, 30] < (8166/1000 : ℝ)) ∧
    colStd [5, 5, 5] = 1 ∧
    (∀ col : List ℚ, colVariance col = 0 → colStd col = 1) := by
  have hmean : colMean [10, 20, 30] = 20 := by
    norm_num [colMean]
  have hvar : colVariance [10, 20, 30] = 200/3 := by
    rw [colVariance, hmean]
    norm_num
  have hfallback : ∀ col : List ℚ, colVariance col = 0 → colStd col = 1 := by
    intro col hc
    rw [colStd]
    simp [hc, Real.sqrt_eq_zero']
  refine ⟨hmean, hvar, ?_, ?_, hfallback⟩
  · have hs : colStd [10, 20, 30] = Real.sqrt ((200/3 : ℚ) : ℝ) := by
      rw [colStd, hvar]
      have hpos : (0 : ℝ) < Real.sqrt ((200/3 : ℚ) : ℝ) := by
        apply Real.sqrt_pos.mpr
        norm_num
      rw [if_neg hpos.ne']
    constructor
    · rw [hs]
      rw [show ((200/3 : ℚ) : ℝ) = 200/3 by norm_num]
      rw [show (8164/1000 : ℝ) = Real.sqrt ((8164/1000) ^ 2) by
        rw [Real.sqrt_sq (by norm_num)]]
      apply Real.sqrt_lt_sqrt (by positivity)
      norm_num
    · rw [hs]
      rw [show ((200/3 : ℚ) : ℝ) = 200/3 by norm_num]
      rw [show (8166/1000 : ℝ) = Real.sqrt ((8166/1000) ^ 2) by
        rw [Real.sqrt_sq (by norm_num)]]
      apply Real.sqrt_lt_sqrt (by positivity)
      norm_num
  · apply hfallback
    norm_num [colVariance, colMean]

/-- Witness for C9: the constant column [5, 5, 5] has zero variance and its
standard deviation falls back to 1. -/
theorem trainNormalization_spec_witness :
    colVariance [5, 5, 5] = 0 ∧ colStd [5, 5, 5] = 1 := by
  have h0 : colVariance [5, 5, 5] = 0 := by
    norm_num [colVariance, colMean]
  exact ⟨h0, trainNormalization_spec.2.2.2.2 [5, 5, 5] h0⟩

/-- One historical row as read by the backtest loop of `runBacktest`
(src/unnamed/part_002 lines 1726-1830).  Numeric fields are the `parseFloat`
views of the row columns (`none` = missing or unparseable); `winner` is
`none` when the winner field is null, undefined or the empty string (such
rows are skipped); `otherFeats` holds the values of the non-moneyline
feature columns (the rolling-form features for team sports). -/
structure BtRow where
  winner : Option ℚ
  ml1 : Option ℚ
  ml2 : Option ℚ
  otherFeats : List (Option ℚ)
  spread : Option ℚ
  spreadOdds1 : Option ℚ
  spreadOdds2 : Option ℚ
  total : Option ℚ
  overOdds : Option ℚ
  underOdds : Option ℚ
  homeScore : Option ℚ
  awayScore : Option ℚ
  deriving DecidableEq

/-- The sport-configuration flags read by the backtest. -/
structure SportCfg where
  supportsSpread : Bool
  supportsTotal : Bool
  deriving DecidableEq

/-- Per-market counters of the backtest (src/unnamed/part_002 lines
1717-1721): bets placed, bets won, cumulative profit, and the accumulated
best-EV sum (updated only for the moneyline market in the source). -/
structure MarketStat where
  bets : ℕ
  correct : ℕ
  profit : ℚ
  evSum : ℚ
  deriving DecidableEq

/-- Bankroll and per-market counters of one backtest run. -/
structure BtState where
  balance : ℚ
  mlStat : MarketStat
  spreadStat : MarketStat
  totalStat : MarketStat
  deriving DecidableEq

/-- JavaScript truthiness of a parsed numeric field: `NaN` (and a missing
value) and 0 are falsy. -/
def truthyNum (v : Option ℚ) : Bool :=
  match v with
  | some q => decide (q ≠ 0)
  | none => false

/-- Falsy-coalescing default, modelling `field || -110` (src/unnamed/part_002
lines 1785-1786 and 1806-1807). -/
def orDefault (v : Option ℚ) (d : ℚ) : ℚ :=
  match v with
  | some q => if q = 0 then d else q
  | none => d

/-- Model of `parseFloat(x.toFixed(1))`: round to one decimal place, halves
toward positive infinity (the ECMAScript `toFixed` tie rule picks the larger
candidate). -/
def toFixed1 (q : ℚ) : ℚ := (⌊q * 10 + 1/2⌋ : ℚ) / 10

/-- Feature-validity flag computed by the backtest feature map
(src/unnamed/part_002 lines 1731-1747): valid requires both moneylines to
be truthy (parseable and nonzero) and every non-moneyline feature value to
be finite. -/
def rowValid (r : BtRow) : Bool :=
  truthyNum r.ml1 && truthyNum r.ml2 && r.otherFeats.all (fun v => v.isSome)

/-- Moneyline bet block of the backtest (src/unnamed/part_002 lines
1755-1780): when both book moneylines are present and nonzero, compute the
EV result (the `toFixed(1)`-rounded best EV is what `parseFloat` reads
back); when it exceeds 2, place a flat 100 stake on the chosen side,
resolve it against the winner label, and update bankroll and the moneyline
counters by the same payout. -/
def mlBetStep (predict : BtRow → ℚ) (r : BtRow) (s : BtState) : BtState :=
  match r.ml1, r.ml2 with
  | some q1, some q2 =>
    if q1 ≠ 0 ∧ q2 ≠ 0 then
      let evResult := calculateEV (predict r) q1 q2
      let ev := toFixed1 evResult.bestEV
      if ev > 2 then
        let odds := if evResult.sideIsTeam1 then q1 else q2
        let w := r.winner.getD 0
        let won : Bool := (evResult.sideIsTeam1 && decide (w = 1))
          || (!evResult.sideIsTeam1 && decide (w = 0))
        let payout := if won
          then (if odds > 0 then 100 * (odds / 100) else 100 * (100 / |odds|))
          else -100
        { balance := s.balance + payout,
          mlStat := { bets := s.mlStat.bets + 1,
                      correct := s.mlStat.correct + (if won then 1 else 0),
                      profit := s.mlStat.profit + payout,
                      evSum := s.mlStat.evSum + ev },
          spreadStat := s.spreadStat, totalStat := s.totalStat }
      else s
    else s
  | _, _ => s

/-- Spread bet block of the backtest (src/unnamed/part_002 lines 1782-1801):
gated on the sport supporting spreads and a truthy spread value; odds
default to -110 when falsy.  The wager is resolved by comparing the chosen
side with the row's winner label (`checkSpreadWinner` is never consulted
here, so no push outcome exists on this path), and the winning payout uses
`odds1` regardless of the side and subtracts the stake. -/
def spreadBetStep (cfg : SportCfg) (predict : BtRow → ℚ) (r : BtRow) (s : BtState) : BtState :=
  match r.spread with
  | some sp =>
    if cfg.supportsSpread && decide (sp ≠ 0) then
      let odds1 := orDefault r.spreadOdds1 (-110)
      let odds2 := orDefault r.spreadOdds2 (-110)
      if sp ≠ 0 ∧ odds1 ≠ 0 ∧ odds2 ≠ 0 then
        let evResult := calculateSpreadEV (predict r) sp odds1 odds2
        let ev := toFixed1 evResult.bestEV
        if ev > 2 then
          let w := r.winner.getD 0
          let won : Bool := if evResult.sideIsTeam1 then decide (w = 1) else decide (w = 0)
          let payout := if won
            then 100 * (if odds1 > 0 then odds1 / 100 else 100 / |odds1|) - 100
            else -100
          { balance := s.balance + payout,
            mlStat := s.mlStat,
            spreadStat := { bets := s.spreadStat.bets + 1,
                            correct := s.spreadStat.correct + (if won then 1 else 0),
                            profit := s.spreadStat.profit + payout,
                            evSum := s.spreadStat.evSum },
            totalStat := s.totalStat }
        else s
      else s
    else s
  | none => s

/-- Totals bet block of the backtest (src/unnamed/part_002 lines 1803-1827):
gated on the sport supporting totals and a truthy total line; resolved
against the actual combined score (missing scores coerce to 0); the winning
payout uses the over odds regardless of the side and subtracts the stake. -/
def totalBetStep (cfg : SportCfg) (predict : BtRow → ℚ) (r : BtRow) (s : BtState) : BtState :=
  match r.total with
  | some t =>
    if cfg.supportsTotal && decide (t ≠ 0) then
      let oOdds := orDefault r.overOdds (-110)
      let uOdds := orDefault r.underOdds (-110)
      if t ≠ 0 ∧ oOdds ≠ 0 ∧ uOdds ≠ 0 then
        let evResult := calculateTotalEV (predict r) t oOdds uOdds
        let ev := toFixed1 evResult.bestEV
        if ev > 2 then
          let actualTotal := (r.homeScore.getD 0) + (r.awayScore.getD 0)
          let won : Bool := if evResult.sideIsOver then decide (actualTotal > t)
            else decide (actualTotal < t)
          let payout := if won
            then 100 * (if oOdds > 0 then oOdds / 100 else 100 / |oOdds|) - 100
            else -100
          { balance := s.balance + payout,
            mlStat := s.mlStat, spreadStat := s.spreadStat,
            totalStat := { bets := s.totalStat.bets + 1,
                           correct := s.totalStat.correct + (if won then 1 else 0),
                           profit := s.totalStat.profit + payout,
                           evSum := s.totalStat.evSum } }
        else s
      else s
    else s
  | none => s

/-- One iteration of the backtest loop (src/unnamed/part_002 lines
1726-1830): skip rows with a missing winner label, skip rows whose feature
vector is invalid, and otherwise run the three bet blocks in order.
`predict` abstracts the model probability `sigmoid(bias + w . xnorm)` of
lines 1749-1751: the claims quantify over every trained model, and every
concrete model induces one such function, so the theorems below hold for
each of them. -/
def btRowStep (cfg : SportCfg) (predict : BtRow → ℚ) (s : BtState) (r : BtRow) : BtState :=
  match r.winner with
  | none => s
  | some _ =>
    if rowValid r then
      totalBetStep cfg predict r (spreadBetStep cfg predict r (mlBetStep predict r s))
    else s

/-- Initial backtest state: bankroll 10000 and zeroed market counters
(src/unnamed/part_002 lines 1717-1723). -/
def initState : BtState :=
  { balance := 10000,
    mlStat := { bets := 0, correct := 0, profit := 0, evSum := 0 },
    spreadStat := { bets := 0, correct := 0, profit := 0, evSum := 0 },
    totalStat := { bets := 0, correct := 0, profit := 0, evSum := 0 } }

/-- Summary record produced by the backtest (src/unnamed/part_002 lines
1832-1846); the `toFixed` string formatting of the reported profit, ROI and
final balance is omitted, as are the per-game balance history and the
`gamesTested` count, none of which feed back into the computation. -/
structure BtResult where
  finalState : BtState
  totalBets : ℕ
  totalProfit : ℚ
  roi : ℚ
  deriving DecidableEq

/-- Embedding of `runBacktest` (src/unnamed/part_002 lines 1695-1849):
refuse with fewer than 50 rows, skip the first 20 rows as warm-up, replay
the rest through the bet blocks, and report the per-market totals.  The
chronological sort of lines 1705-1713 happens before the loop; the theorems
below quantify over an arbitrary (hence also the sorted) row list. -/
def runBacktest (cfg : SportCfg) (predict : BtRow → ℚ) (rows : List BtRow) :
    Option BtResult :=
  if rows.length < 50 then none
  else
    let finalS := (rows.drop 20).foldl (btRowStep cfg predict) initState
    let totalBets := finalS.mlStat.bets + finalS.spreadStat.bets + finalS.totalStat.bets
    let totalProfit := finalS.mlStat.profit + finalS.spreadStat.profit
      + finalS.totalStat.profit
    some { finalState := finalS, totalBets := totalBets, totalProfit := totalProfit,
           roi := if 0 < totalBets then totalProfit / (totalBets * 100) * 100 else 0 }

/-- The moneyline block changes bankroll and moneyline profit by the same
payout and leaves the other two markets untouched. -/
theorem mlBetStep_conservation (predict : BtRow → ℚ) (r : BtRow) (s : BtState) :
    (mlBetStep predict r s).balance - (mlBetStep predict r s).mlStat.profit
        = s.balance - s.mlStat.profit ∧
    (mlBetStep predict r s).spreadStat = s.spreadStat ∧
    (mlBetStep predict r s).totalStat = s.totalStat := by
  obtain ⟨w, m1, m2, feats, sp, so1, so2, tot, oo, uo, hs, aws⟩ := r
  rcases m1 with _ | q1 <;> rcases m2 with _ | q2 <;>
    simp only [mlBetStep] <;>
    first
      | exact ⟨trivial, trivial, trivial⟩
      | (split_ifs <;> exact ⟨by ring, rfl, rfl⟩)

/-- The spread block changes bankroll and spread profit by the same payout
and leaves the other two markets untouched. -/
theorem spreadBetStep_conservation (cfg : SportCfg) (predict : BtRow → ℚ)
    (r : BtRow) (s : BtState) :
    (spreadBetStep cfg predict r s).balance
        - (spreadBetStep cfg predict r s).spreadStat.profit
        = s.balance - s.spreadStat.profit ∧
    (spreadBetStep cfg predict r s).mlStat = s.mlStat ∧
    (spreadBetStep cfg predict r s).totalStat = s.totalStat := by
  obtain ⟨w, m1, m2, feats, sp, so1, so2, tot, oo, uo, hs, aws⟩ := r
  rcases sp with _ | q <;>
    simp only [spreadBetStep] <;>
    first
      | exact ⟨trivial, trivial, trivial⟩
      | (split_ifs <;> exact ⟨by ring, rfl, rfl⟩)

/-- The totals block changes bankroll and totals profit by the same payout
and leaves the other two markets untouched. -/
theorem totalBetStep_conservation (cfg : SportCfg) (predict : BtRow → ℚ)
    (r : BtRow) (s : BtState) :
    (totalBetStep cfg predict r s).balance
        - (totalBetStep cfg predict r s).totalStat.profit
        = s.balance - s.totalStat.profit ∧
    (totalBetStep cfg predict r s).mlStat = s.mlStat ∧
    (totalBetStep cfg predict r s).spreadStat = s.spreadStat := by
  obtain ⟨w, m1, m2, feats, sp, so1, so2, tot, oo, uo, hs, aws⟩ := r
  rcases tot with _ | q <;>
    simp only [totalBetStep] <;>
    first
      | exact ⟨trivial, trivial, trivial⟩
      | (split_ifs <;> exact ⟨by ring, rfl, rfl⟩)

/-- One loop iteration preserves the difference between the summed market
profits and the bankroll. -/
theorem btRowStep_conservation (cfg : SportCfg) (predict : BtRow → ℚ)
    (s : BtState) (r : BtRow) :
    (btRowStep cfg predict s r).mlStat.profit
        + (btRowStep cfg predict s r).spreadStat.profit
        + (btRowStep cfg predict s r).totalStat.profit
        - (btRowStep cfg predict s r).balance
      = s.mlStat.profit + s.spreadStat.profit + s.totalStat.profit - s.balance := by
  rcases hw : r.winner with _ | w
  · simp only [btRowStep, hw]
  · simp only [btRowStep, hw]
    split_ifs with hv
    · obtain ⟨h1a, h1b, h1c⟩ := mlBetStep_conservation predict r s
      obtain ⟨h2a, h2b, h2c⟩ :=
        spreadBetStep_conservation cfg predict r (mlBetStep predict r s)
      obtain ⟨h3a, h3b, h3c⟩ := totalBetStep_conservation cfg predict r
        (spreadBetStep cfg predict r (mlBetStep predict r s))
      have e1 := congrArg MarketStat.profit h1b
      have e2 := congrArg MarketStat.profit h1c
      have e3 := congrArg MarketStat.profit h2b
      have e4 := congrArg MarketStat.profit h2c
      have e5 := congrArg MarketStat.profit h3b
      have e6 := congrArg MarketStat.profit h3c
      linarith [h1a, h2a, h3a, e1, e2, e3, e4, e5, e6]
    · rfl

/-- Replaying any row list preserves the profit-balance difference. -/
theorem foldl_btRowStep_conservation (cfg : SportCfg) (predict : BtRow → ℚ)
    (l : List BtRow) :
    ∀ s : BtState,
      (l.foldl (btRowStep cfg predict) s).mlStat.profit
          + (l.foldl (btRowStep cfg predict) s).spreadStat.profit
          + (l.foldl (btRowStep cfg predict) s).totalStat.profit
          - (l.foldl (btRowStep cfg predict) s).balance
        = s.mlStat.profit + s.spreadStat.profit + s.totalStat.profit - s.balance := by
  induction l with
  | nil => intro s; rfl
  | cons r rs ih =>
    intro s
    rw [List.foldl_cons, ih (btRowStep cfg predict s r),
      btRowStep_conservation cfg predict s r]

/-- C8: for every sport configuration, model probability function, and row
list on which the backtest completes, the sum of the per-market cumulative
profits (moneyline + spread + total) equals the final bankroll minus the
starting bankroll 10000 exactly, and this sum is exactly the reported
total profit. -/
theorem runBacktest_bankroll_conservation (cfg : SportCfg) (predict : BtRow → ℚ)
    (rows : List BtRow) (res : BtResult)
    (h : runBacktest cfg predict rows = some res) :
    res.finalState.mlStat.profit + res.finalState.spreadStat.profit
        + res.finalState.totalStat.profit = res.finalState.balance - 10000 ∧
    res.totalProfit = res.finalState.balance - 10000 := by
  rw [runBacktest] at h
  by_cases hlen : rows.length < 50
  · rw [if_pos hlen] at h
    exact absurd h (by simp)
  · rw [if_neg hlen] at h
    have hres := (Option.some.inj h).symm
    have hfold := foldl_btRowStep_conservation cfg predict (rows.drop 20) initState
    have hsum : ((rows.drop 20).foldl (btRowStep cfg predict) initState).mlStat.profit
        + ((rows.drop 20).foldl (btRowStep cfg predict) initState).spreadStat.profit
        + ((rows.drop 20).foldl (btRowStep cfg predict) initState).totalStat.profit
        = ((rows.drop 20).foldl (btRowStep cfg predict) initState).balance - 10000 := by
      have hinit : initState.mlStat.profit + initState.spreadStat.profit
          + initState.totalStat.profit - initState.balance = -10000 := by
        norm_num [initState]
      linarith
    subst hres
    exact ⟨hsum, hsum⟩

/-- A row the backtest always skips (missing winner label). -/
def emptyRow : BtRow :=
  { winner := none, ml1 := none, ml2 := none, otherFeats := [],
    spread := none, spreadOdds1 := none, spreadOdds2 := none,
    total := none, overOdds := none, underOdds := none,
    homeScore := none, awayScore := none }

/-- A skipped row leaves the backtest state unchanged. -/
theorem btRowStep_emptyRow (cfg : SportCfg) (predict : BtRow → ℚ) (s : BtState) :
    btRowStep cfg predict s emptyRow = s := rfl

/-- Replaying only skipped rows leaves the backtest state unchanged. -/
theorem foldl_btRowStep_emptyRow (cfg : SportCfg) (predict : BtRow → ℚ) :
    ∀ (n : ℕ) (s : BtState),
      (List.replicate n emptyRow).foldl (btRowStep cfg predict) s = s := by
  intro n
  induction n with
  | zero => intro s; rfl
  | succ m ih =>
    intro s
    rw [List.replicate_succ, List.foldl_cons, btRowStep_emptyRow]
    exact ih s

/-- A 50-row dataset of skipped rows: the backtest completes with zero bets. -/
def ex50bt : List BtRow := List.replicate 50 emptyRow

/-- The trivial backtest result on `ex50bt`. -/
def res50 : BtResult :=
  { finalState := initState, totalBets := 0, totalProfit := 0, roi := 0 }

/-- Witness for C8: on a concrete 50-row dataset the backtest completes and
the conservation identity holds for its result. -/
theorem runBacktest_bankroll_conservation_witness :
    res50.finalState.mlStat.profit + res50.finalState.spreadStat.profit
        + res50.finalState.totalStat.profit = res50.finalState.balance - 10000 ∧
    res50.totalProfit = res50.finalState.balance - 10000 :=
  runBacktest_bankroll_conservation ⟨true, true⟩ (fun _ => 1/2) ex50bt res50 (by
    rw [runBacktest, if_neg (by norm_num [ex50bt])]
    rw [show ex50bt.drop 20 = List.replicate 30 emptyRow from rfl]
    rw [foldl_btRowStep_emptyRow]
    norm_num [initState, res50])

/-- A row whose final scores and spread form a push (20 + 3 = 23): the
winner label 0 is exactly what the rolling-form pass assigns to such a row
(`determineWinnerFromScores` yields null on a push and `Number(null)` is 0).
Book odds are +100 on every market for a round payout. -/
def pushRow : BtRow :=
  { winner := some 0, ml1 := some 100, ml2 := some 100,
    otherFeats := [some (1/2), some (1/2)],
    spread := some 3, spreadOdds1 := some 100, spreadOdds2 := some 100,
    total := none, overOdds := none, underOdds := none,
    homeScore := some 20, awayScore := some 23 }

/-- A 50-row dataset whose only bettable row is the push row. -/
def pushData : List BtRow := List.replicate 49 emptyRow ++ [pushRow]

/-- Evaluation of one backtest iteration on the push row with model
probability 0.9: both the moneyline and the spread blocks bet on team 1 and
resolve as losses against the winner label 0. -/
theorem btRowStep_pushRow :
    btRowStep ⟨true, false⟩ (fun _ => 9/10) initState pushRow
      = { balance := 9800,
          mlStat := { bets := 1, correct := 0, profit := -100, evSum := 170 },
          spreadStat := { bets := 1, correct := 0, profit := -100, evSum := 0 },
          totalStat := { bets := 0, correct := 0, profit := 0, evSum := 0 } } := by
  norm_num [btRowStep, rowValid, truthyNum, pushRow, mlBetStep, spreadBetStep,
    totalBetStep, calculateEV, calculateSpreadEV, toFixed1, orDefault, initState,
    max_def, min_def]

/-- C7 (code bug): on a row whose adjusted home score equals the away score,
`checkSpreadWinner` correctly reports a push, but the backtest never
consults it: the spread wager is resolved by comparing the chosen side with
the row's winner label (src/unnamed/part_002 line 1792), so the push is
recorded as one spread bet with zero wins and a profit of -100 instead of
contributing zero and being counted neither as a win nor as a loss. -/
theorem backtest_push_counted_as_loss :
    checkSpreadWinner pushRow.homeScore pushRow.awayScore pushRow.spread
      = some SpreadOutcome.push ∧
    (runBacktest ⟨true, false⟩ (fun _ => 9/10) pushData).map
        (fun res => (res.finalState.spreadStat.bets, res.finalState.spreadStat.correct,
          res.finalState.spreadStat.profit))
      = some (1, 0, -100) := by
  constructor
  · norm_num [checkSpreadWinner, pushRow]
  · rw [runBacktest, if_neg (by norm_num [pushData])]
    rw [show pushData.drop 20 = List.replicate 29 emptyRow ++ [pushRow] from rfl]
    rw [List.foldl_append, foldl_btRowStep_emptyRow]
    rw [show (List.foldl (btRowStep ⟨true, false⟩ fun _ => 9/10) initState [pushRow])
        = btRowStep ⟨true, false⟩ (fun _ => 9/10) initState pushRow from rfl]
    rw [btRowStep_pushRow]
    norm_num

end Stats
